import Mathlib

/-
  Verification development for the obsidian-image-pan-and-zoom plugin.

  The TypeScript sources hold three revisions of the same plugin:
  * src/main.ts (first revision, lines 1-283): additive wheel zoom,
    centre transform origin;
  * src/main.ts (second revision, lines 283-620): multiplicative wheel
    zoom gated on Ctrl, top-left transform origin, SVG viewBox support —
    this is the revision the claims cite by line number and the one the
    single-image world model below embeds;
  * src/unnamed/part_000 and part_001: the Alt-gated single-image and the
    multi-image (Map-based) revisions; part_001 is embedded separately.

  Numbers are modelled as exact rationals (the relevant claims are stated
  over exact arithmetic); JavaScript NaN is modelled as `none` in
  `Option ℚ` where parsing can fail.  DOM geometry (getBoundingClientRect
  results, hit-test flags such as `element.contains(target)`) is supplied
  through the events, since it is an external query the plugin never
  computes itself.  The `viewBox` attribute is stored structurally: the
  plugin only ever writes strings of the form `${x} ${y} ${w} ${h}`, and
  the JavaScript number → string → parseFloat round trip is exact.
-/

namespace ImagePanZoom

/-- A parsed SVG viewBox rectangle (x, y, width, height). -/
structure ViewBox where
  x : ℚ
  y : ℚ
  width : ℚ
  height : ℚ
deriving DecidableEq

/-- A DOMRect as returned by getBoundingClientRect. -/
structure Rect where
  left : ℚ
  right : ℚ
  top : ℚ
  bottom : ℚ
deriving DecidableEq

/-- isMouseWithinFrame from src/main.ts lines 608-619 (second revision:
no padding): the client point must lie inside the bounding rect. -/
def isMouseWithinFrame (cx cy : ℚ) (r : Rect) : Bool :=
  decide (r.left ≤ cx) && decide (cx ≤ r.right) &&
  decide (r.top ≤ cy) && decide (cy ≤ r.bottom)

/-- The drag-tolerance bounds check of handleMouseMove
(src/main.ts lines 477-481): within the rect enlarged by `tol`. -/
def withinTolerance (cx cy : ℚ) (r : Rect) (tol : ℚ) : Bool :=
  decide (r.left - tol ≤ cx) && decide (cx ≤ r.right + tol) &&
  decide (r.top - tol ≤ cy) && decide (cy ≤ r.bottom + tol)

/-- The cursor-anchored offset update of handleWheel
(src/main.ts lines 433-434): `offsetX = mouseX - (mouseX - offsetX) * scaleChange`. -/
def wheelOffsetUpdate (mouse off ratio : ℚ) : ℚ :=
  mouse - (mouse - off) * ratio

/-- The scale/offset core of handleWheel (src/main.ts lines 414-434,
second revision): multiply or divide the scale by 1.1 according to the
wheel direction, clamp below at 0.1, then anchor the offsets at the
image-relative mouse position. -/
structure ZP where
  scale : ℚ
  offsetX : ℚ
  offsetY : ℚ
deriving DecidableEq

def wheelCore (mouseX mouseY deltaY : ℚ) (st : ZP) : ZP :=
  let prevScale := st.scale
  let s1 := if deltaY < 0 then st.scale * (11/10) else st.scale / (11/10)
  let s2 := max (1/10) s1
  let ratio := s2 / prevScale
  { scale := s2,
    offsetX := wheelOffsetUpdate mouseX st.offsetX ratio,
    offsetY := wheelOffsetUpdate mouseY st.offsetY ratio }

/-- The additive wheel scale update of the first revision
(src/main.ts lines 79-87): add 0.1 on zoom-in, otherwise subtract 0.1
clamped below at 0.1. -/
def wheelScaleAdditive (scale deltaY : ℚ) : ℚ :=
  if deltaY < 0 then scale + 1/10 else max (1/10) (scale - 1/10)

/-- Rendering model of updateTransform (src/main.ts lines 517-518):
`translate(offsetX px, offsetY px) scale(scale)` with transform-origin
top left maps image point p (per axis) to layout + offset + scale * p
in client coordinates. -/
def renderX (layout off s p : ℚ) : ℚ := layout + off + s * p

/-- Left edge of the transformed element's bounding client rect: with
transform-origin top left and a positive scale the rendered extent of
content [0, w] is [layout + off, layout + off + s * w]. -/
def rectLeft (layout off : ℚ) : ℚ := layout + off

/-! ## Single-image world model (src/main.ts, second revision) -/

/-- The tracked per-element DOM state the plugin reads or writes: the two
marker classes, the inline CSS transform (`none` = cleared, otherwise the
translate offsets and scale), and the viewBox attribute. -/
structure ImgDom where
  activeClass : Bool
  draggingClass : Bool
  transformStyle : Option (ℚ × ℚ × ℚ)
  viewBoxAttr : Option ViewBox

/-- The plugin fields of the second revision of src/main.ts
(lines 286-298) together with the DOM: `svgOf` records, statically, which
image elements are SVG elements, and `dom` the per-element DOM state. -/
structure World where
  svgOf : Nat → Bool
  dom : Nat → ImgDom
  activeImage : Option Nat
  isDragging : Bool
  initialX : ℚ
  initialY : ℚ
  offsetX : ℚ
  offsetY : ℚ
  scale : ℚ
  isSvg : Bool
  originalViewBox : Option ViewBox
  svgViewBox : Option ViewBox

/-- Pointwise update of the per-element DOM map. -/
def updDom (f : Nat → ImgDom) (i : Nat) (g : ImgDom → ImgDom) : Nat → ImgDom :=
  fun j => if j = i then g (f j) else f j

/-- The plugin's initial state (field initialisers, src/main.ts lines
286-298), over a document whose images carry arbitrary initial viewBox
attributes and none of the plugin's classes or inline transforms. -/
def initWorld (svgOf : Nat → Bool) (attr0 : Nat → Option ViewBox) : World :=
  { svgOf := svgOf,
    dom := fun i => { activeClass := false, draggingClass := false,
                      transformStyle := none, viewBoxAttr := attr0 i },
    activeImage := none, isDragging := false,
    initialX := 0, initialY := 0, offsetX := 0, offsetY := 0, scale := 1,
    isSvg := false, originalViewBox := none, svgViewBox := none }

/-- resetImage (src/main.ts lines 529-557): restore the viewBox attribute
when an SVG original was recorded, clear the inline transform and the
active class, and reset the numeric state.  (The width/height attribute
and cursor/transition style clears are not tracked.)  Note the function
does not touch `isDragging` or the `is-dragging` class. -/
def resetImage (i : Nat) (w : World) : World :=
  let dom1 :=
    if w.isSvg then
      match w.originalViewBox with
      | some o => updDom w.dom i (fun d => { d with viewBoxAttr := some o })
      | none => w.dom
    else w.dom
  { w with
    dom := updDom dom1 i (fun d => { d with transformStyle := none, activeClass := false }),
    scale := 1, offsetX := 0, offsetY := 0,
    isSvg := false, originalViewBox := none, svgViewBox := none }

/-- updateSvgTransform (src/main.ts lines 523-527): write the current
svgViewBox into the element's viewBox attribute. -/
def updateSvgTransform (i : Nat) (w : World) : World :=
  { w with dom :=
      (match w.svgViewBox with
       | none => w.dom
       | some vb => updDom w.dom i (fun d => { d with viewBoxAttr := some vb })) }

/-- updateTransform (src/main.ts lines 511-521), called with the active
image `i`: for SVG delegate to updateSvgTransform, otherwise write
`translate(offsetX px, offsetY px) scale(scale)` (transform-origin top
left) as the inline transform. -/
def updateTransform (i : Nat) (w : World) : World :=
  if w.isSvg then updateSvgTransform i w
  else { w with dom := (updDom w.dom i
          (fun d => { d with transformStyle := some (w.offsetX, w.offsetY, w.scale) })) }

/-- handleImageClick (src/main.ts lines 329-373).  `target` is the
closest img/svg ancestor of the click target (`none` when there is
none); `inWorkspace` summarises the workspace-area checks (inside a
non-sidebar workspace split and a leaf content pane).  A different
previously active image is reset first; then the target is activated,
and for an SVG the current viewBox attribute is parsed and recorded as
`originalViewBox` (the attribute is stored structurally, so a parse of a
present attribute always succeeds; an absent attribute leaves the
previous recorded values in place, exactly as the code does). -/
def activate (t : Nat) (w1 : World) : World :=
  let ovb :=
    if w1.svgOf t then
      match (w1.dom t).viewBoxAttr with
      | some vb => (some vb, some vb)
      | none => (w1.originalViewBox, w1.svgViewBox)
    else (w1.originalViewBox, w1.svgViewBox)
  { w1 with activeImage := some t, isSvg := w1.svgOf t,
            originalViewBox := ovb.1, svgViewBox := ovb.2,
            dom := updDom w1.dom t (fun d => { d with activeClass := true }) }

def handleImageClick (target : Option Nat) (inWorkspace : Bool) (w : World) : World :=
  match target with
  | none => w
  | some t =>
    if inWorkspace = false then w
    else
      activate t
        (match w.activeImage with
         | some a => if a ≠ t then resetImage a w else w
         | none => w)

/-- handleWheel (src/main.ts lines 407-450): bail out unless an image is
active, the cursor is inside its bounding rect, and Ctrl is held; then
update scale and offsets through the wheel core and, for an SVG with a
recorded viewBox, recompute the current viewBox from the original and
the new scale/offsets, finally writing the transform to the DOM.
`r` is the active image's bounding client rect.  `wheelApply` is the
state-updating middle part of the handler (lines 414-444): scale/offset
update through the wheel core, then the SVG viewBox recomputation. -/
def wheelApply (mouseX mouseY deltaY : ℚ) (w : World) : World :=
  let zp := wheelCore mouseX mouseY deltaY
    { scale := w.scale, offsetX := w.offsetX, offsetY := w.offsetY }
  let newVB :=
    if w.isSvg then
      match w.svgViewBox, w.originalViewBox with
      | some _, some o =>
        let nw := o.width / zp.scale
        let nh := o.height / zp.scale
        some { x := o.x - zp.offsetX * (nw / o.width),
               y := o.y - zp.offsetY * (nh / o.height),
               width := nw, height := nh }
      | _, _ => w.svgViewBox
    else w.svgViewBox
  { w with scale := zp.scale, offsetX := zp.offsetX, offsetY := zp.offsetY,
           svgViewBox := newVB }

def handleWheel (cx cy : ℚ) (r : Rect) (deltaY : ℚ) (ctrl : Bool) (w : World) : World :=
  match w.activeImage with
  | none => w
  | some i =>
    if isMouseWithinFrame cx cy r = false then w
    else if ctrl = false then w
    else updateTransform i (wheelApply (cx - r.left) (cy - r.top) deltaY w)

/-- handleMouseDown (src/main.ts lines 452-469): a left-button press
inside the frame and inside the active image (but not on the reset
button) starts a drag. `onImage` is `activeImage.contains(e.target)`,
`onResetBtn` the reset-button hit test. -/
def handleMouseDown (button : Nat) (cx cy : ℚ) (r : Rect) (onImage onResetBtn : Bool)
    (w : World) : World :=
  if button ≠ 0 then w
  else
    match w.activeImage with
    | none => w
    | some i =>
      if isMouseWithinFrame cx cy r = false then w
      else if onImage = false then w
      else if onResetBtn then w
      else
        { w with isDragging := true,
                 initialX := cx - w.offsetX, initialY := cy - w.offsetY,
                 dom := updDom w.dom i (fun d => { d with draggingClass := true }) }

/-- handleMouseMove (src/main.ts lines 471-502): while dragging, stop if
the cursor left the rect by more than 50px; otherwise pan the SVG
viewBox (scaled by viewBox-per-client-pixel) or add the mouse movement
to the offsets, and write the transform.  `dragApply` is the panning
part (lines 490-496). -/
def dragApply (mx my : ℚ) (r : Rect) (w : World) : World :=
  if w.isSvg then
    match w.svgViewBox with
    | some vb =>
      { w with svgViewBox := (some
          { vb with
            x := vb.x - mx * (vb.width / (r.right - r.left)),
            y := vb.y - my * (vb.height / (r.bottom - r.top)) }) }
    | none => { w with offsetX := w.offsetX + mx, offsetY := w.offsetY + my }
  else { w with offsetX := w.offsetX + mx, offsetY := w.offsetY + my }

def handleMouseMove (cx cy mx my : ℚ) (r : Rect) (w : World) : World :=
  if w.isDragging = false then w
  else
    match w.activeImage with
    | none => w
    | some i =>
      if withinTolerance cx cy r 50 = false then
        { w with isDragging := false,
                 dom := updDom w.dom i (fun d => { d with draggingClass := false }) }
      else updateTransform i (dragApply mx my r w)

/-- handleMouseUp (src/main.ts lines 504-509): end the drag, but only
when an image is still active. -/
def handleMouseUp (w : World) : World :=
  if w.isDragging then
    match w.activeImage with
    | some i =>
      { w with isDragging := false,
               dom := updDom w.dom i (fun d => { d with draggingClass := false }) }
    | none => w
  else w

/-- The Escape handler registered in onload (src/main.ts lines 308-313):
reset the active image and deactivate. -/
def handleEscape (w : World) : World :=
  match w.activeImage with
  | none => w
  | some i => { resetImage i w with activeImage := none }

/-- The reset button's click handler (src/main.ts lines 565-571):
reset the active image and deactivate. -/
def handleResetClick (w : World) : World :=
  match w.activeImage with
  | none => w
  | some i => { resetImage i w with activeImage := none }

/-- The DOM events dispatched to the plugin, carrying the externally
queried DOM geometry and hit-test results. -/
inductive Ev where
  | click (target : Option Nat) (inWorkspace : Bool)
  | wheel (clientX clientY : ℚ) (rect : Rect) (deltaY : ℚ) (ctrl : Bool)
  | mousedown (button : Nat) (clientX clientY : ℚ) (rect : Rect) (onImage onResetBtn : Bool)
  | mousemove (clientX clientY movementX movementY : ℚ) (rect : Rect)
  | mouseup
  | escape
  | resetClick

/-- One event dispatch. -/
def step : Ev → World → World
  | Ev.click t inW, w => handleImageClick t inW w
  | Ev.wheel cx cy r dY ctrl, w => handleWheel cx cy r dY ctrl w
  | Ev.mousedown b cx cy r onImg onBtn, w => handleMouseDown b cx cy r onImg onBtn w
  | Ev.mousemove cx cy mx my r, w => handleMouseMove cx cy mx my r w
  | Ev.mouseup, w => handleMouseUp w
  | Ev.escape, w => handleEscape w
  | Ev.resetClick, w => handleResetClick w

/-- States reachable from an initial document by any event sequence. -/
inductive Reach : World → Prop where
  | init (svgOf : Nat → Bool) (attr0 : Nat → Option ViewBox) : Reach (initWorld svgOf attr0)
  | step (e : Ev) (w : World) : Reach w → Reach (step e w)

/-! ## The reachable-state invariant -/

/-- The state invariant of the single-image revision: the scale is
clamped at 0.1; a fully idle plugin carries the pristine numeric state;
the active marker class and a non-cleared inline transform only ever sit
on the active image; a raster context carries no viewBox state; and the
`isSvg` flag agrees with the active element's kind. -/
def Inv (w : World) : Prop :=
  (1/10 ≤ w.scale) ∧
  (w.activeImage = none →
    w.scale = 1 ∧ w.offsetX = 0 ∧ w.offsetY = 0 ∧ w.isSvg = false ∧
    w.originalViewBox = none ∧ w.svgViewBox = none) ∧
  (∀ i, (w.dom i).activeClass = true → w.activeImage = some i) ∧
  (∀ i, (w.dom i).transformStyle ≠ none → w.activeImage = some i) ∧
  (w.isSvg = false → w.originalViewBox = none ∧ w.svgViewBox = none) ∧
  (∀ i, w.activeImage = some i → w.isSvg = w.svgOf i)

lemma updDom_self (f : Nat → ImgDom) (i : Nat) (g : ImgDom → ImgDom) :
    updDom f i g i = g (f i) := by
  simp [updDom]

lemma updDom_other (f : Nat → ImgDom) (i j : Nat) (g : ImgDom → ImgDom) (h : j ≠ i) :
    updDom f i g j = f j := by
  simp [updDom, h]

lemma resetImage_dom_activeClass (a j : Nat) (w : World) :
    ((resetImage a w).dom j).activeClass =
      (if j = a then false else (w.dom j).activeClass) := by
  by_cases h : j = a
  · subst h; simp [resetImage, updDom]
  · simp only [resetImage]
    rw [updDom_other _ _ _ _ h]
    by_cases hs : w.isSvg
    · cases ho : w.originalViewBox with
      | some o => simp [hs, ho, updDom_other _ _ _ _ h, h]
      | none => simp [hs, ho, h]
    · simp [hs, h]

lemma resetImage_dom_transformStyle (a j : Nat) (w : World) :
    ((resetImage a w).dom j).transformStyle =
      (if j = a then none else (w.dom j).transformStyle) := by
  by_cases h : j = a
  · subst h; simp [resetImage, updDom]
  · simp only [resetImage]
    rw [updDom_other _ _ _ _ h]
    by_cases hs : w.isSvg
    · cases ho : w.originalViewBox with
      | some o => simp [hs, ho, updDom_other _ _ _ _ h, h]
      | none => simp [hs, ho, h]
    · simp [hs, h]

lemma resetImage_dom_viewBoxAttr_restored (a : Nat) (w : World) (o : ViewBox)
    (hsvg : w.isSvg = true) (ho : w.originalViewBox = some o) :
    ((resetImage a w).dom a).viewBoxAttr = some o := by
  simp [resetImage, hsvg, ho, updDom]

lemma inv_activate (t : Nat) (w1 : World)
    (hs : 1/10 ≤ w1.scale)
    (hc : ∀ j, (w1.dom j).activeClass = true → j = t)
    (ht : ∀ j, (w1.dom j).transformStyle ≠ none → j = t)
    (hsvg : w1.svgOf t = false → w1.originalViewBox = none ∧ w1.svgViewBox = none) :
    Inv (activate t w1) := by
  refine ⟨hs, by intro h; exact absurd h (by simp [activate]), ?_, ?_, ?_, ?_⟩
  · intro j hj
    by_cases h : j = t
    · subst h; rfl
    · exfalso
      have : ((activate t w1).dom j).activeClass = (w1.dom j).activeClass := by
        show (updDom w1.dom t _ j).activeClass = _
        rw [updDom_other _ _ _ _ h]
      exact h (hc j (this ▸ hj))
  · intro j hj
    by_cases h : j = t
    · subst h; rfl
    · exfalso
      have heq : ((activate t w1).dom j).transformStyle = (w1.dom j).transformStyle := by
        show (updDom w1.dom t _ j).transformStyle = _
        rw [updDom_other _ _ _ _ h]
      exact h (ht j (by rw [← heq]; exact hj))
  · intro hfalse
    have hb : w1.svgOf t = false := hfalse
    obtain ⟨h1, h2⟩ := hsvg hb
    constructor
    · show (if w1.svgOf t then _ else (w1.originalViewBox, w1.svgViewBox)).1 = none
      rw [hb]; simpa using h1
    · show (if w1.svgOf t then _ else (w1.originalViewBox, w1.svgViewBox)).2 = none
      rw [hb]; simpa using h2
  · intro i hi
    have hi2 : some t = some i := hi
    obtain rfl := Option.some.inj hi2
    rfl

lemma inv_deactivate (i : Nat) (w : World) (hA : w.activeImage = some i) (hw : Inv w) :
    Inv { resetImage i w with activeImage := none } := by
  obtain ⟨h1, h2, h3, h4, h5, h6⟩ := hw
  refine ⟨by show (1:ℚ)/10 ≤ 1; norm_num, ?_, ?_, ?_, ?_, ?_⟩
  · intro _
    exact ⟨rfl, rfl, rfl, rfl, rfl, rfl⟩
  · intro j hj
    exfalso
    have hc : ((resetImage i w).dom j).activeClass =
        (if j = i then false else (w.dom j).activeClass) :=
      resetImage_dom_activeClass i j w
    by_cases h : j = i
    · rw [if_pos h] at hc
      rw [show (({ resetImage i w with activeImage := none } : World).dom j).activeClass =
            ((resetImage i w).dom j).activeClass from rfl, hc] at hj
      exact Bool.false_ne_true hj
    · rw [if_neg h] at hc
      rw [show (({ resetImage i w with activeImage := none } : World).dom j).activeClass =
            ((resetImage i w).dom j).activeClass from rfl, hc] at hj
      have := h3 j hj
      rw [hA] at this
      exact h (Option.some.inj this).symm
  · intro j hj
    exfalso
    have hc : ((resetImage i w).dom j).transformStyle =
        (if j = i then none else (w.dom j).transformStyle) :=
      resetImage_dom_transformStyle i j w
    by_cases h : j = i
    · rw [if_pos h] at hc
      rw [show (({ resetImage i w with activeImage := none } : World).dom j).transformStyle =
            ((resetImage i w).dom j).transformStyle from rfl, hc] at hj
      exact hj rfl
    · rw [if_neg h] at hc
      rw [show (({ resetImage i w with activeImage := none } : World).dom j).transformStyle =
            ((resetImage i w).dom j).transformStyle from rfl, hc] at hj
      have := h4 j hj
      rw [hA] at this
      exact h (Option.some.inj this).symm
  · intro _
    exact ⟨rfl, rfl⟩
  · intro j hj
    exact absurd hj (by simp)

lemma wheelApply_svgViewBox_raster (mX mY dY : ℚ) (w : World) (h : w.isSvg = false) :
    (wheelApply mX mY dY w).svgViewBox = w.svgViewBox := by
  simp [wheelApply, h]

lemma inv_wheelApply (mX mY dY : ℚ) (i : Nat) (w : World)
    (hA : w.activeImage = some i) (hw : Inv w) : Inv (wheelApply mX mY dY w) := by
  obtain ⟨h1, h2, h3, h4, h5, h6⟩ := hw
  refine ⟨le_max_left _ _, ?_, h3, h4, ?_, h6⟩
  · intro h
    have h0 : w.activeImage = none := h
    rw [hA] at h0
    exact absurd h0 (Option.some_ne_none i)
  · intro hf
    have hf2 : w.isSvg = false := hf
    exact ⟨(h5 hf2).1, by
      rw [wheelApply_svgViewBox_raster mX mY dY w hf2]; exact (h5 hf2).2⟩

lemma dragApply_fields (mx my : ℚ) (r : Rect) (w : World) :
    (dragApply mx my r w).scale = w.scale ∧
    (dragApply mx my r w).activeImage = w.activeImage ∧
    (dragApply mx my r w).dom = w.dom ∧
    (dragApply mx my r w).isSvg = w.isSvg ∧
    (dragApply mx my r w).originalViewBox = w.originalViewBox ∧
    (dragApply mx my r w).svgOf = w.svgOf := by
  unfold dragApply
  by_cases hs : w.isSvg
  · rw [if_pos hs]
    cases w.svgViewBox <;> exact ⟨rfl, rfl, rfl, rfl, rfl, rfl⟩
  · rw [if_neg hs]
    exact ⟨rfl, rfl, rfl, rfl, rfl, rfl⟩

lemma dragApply_svgViewBox_raster (mx my : ℚ) (r : Rect) (w : World) (h : w.isSvg = false) :
    (dragApply mx my r w).svgViewBox = w.svgViewBox := by
  simp [dragApply, h]

lemma inv_dragApply (mx my : ℚ) (r : Rect) (i : Nat) (w : World)
    (hA : w.activeImage = some i) (hw : Inv w) : Inv (dragApply mx my r w) := by
  obtain ⟨h1, h2, h3, h4, h5, h6⟩ := hw
  obtain ⟨f1, f2, f3, f4, f5, f6⟩ := dragApply_fields mx my r w
  refine ⟨by rw [f1]; exact h1, ?_, ?_, ?_, ?_, ?_⟩
  · intro h
    rw [f2, hA] at h
    exact absurd h (Option.some_ne_none i)
  · intro j hj
    rw [f3] at hj
    rw [f2]
    exact h3 j hj
  · intro j hj
    rw [f3] at hj
    rw [f2]
    exact h4 j hj
  · intro hf
    rw [f4] at hf
    exact ⟨by rw [f5]; exact (h5 hf).1, by
      rw [dragApply_svgViewBox_raster mx my r w hf]; exact (h5 hf).2⟩
  · intro j hj
    rw [f2] at hj
    rw [f4, f6]
    exact h6 j hj

lemma updateSvgTransform_dom_activeClass (i j : Nat) (w : World) :
    ((updateSvgTransform i w).dom j).activeClass = (w.dom j).activeClass := by
  unfold updateSvgTransform
  cases w.svgViewBox with
  | none => rfl
  | some vb =>
    by_cases h : j = i
    · subst h
      show ((updDom w.dom j _) j).activeClass = _
      rw [updDom_self]
    · show ((updDom w.dom i _) j).activeClass = _
      rw [updDom_other _ _ _ _ h]

lemma updateSvgTransform_dom_transformStyle (i j : Nat) (w : World) :
    ((updateSvgTransform i w).dom j).transformStyle = (w.dom j).transformStyle := by
  unfold updateSvgTransform
  cases w.svgViewBox with
  | none => rfl
  | some vb =>
    by_cases h : j = i
    · subst h
      show ((updDom w.dom j _) j).transformStyle = _
      rw [updDom_self]
    · show ((updDom w.dom i _) j).transformStyle = _
      rw [updDom_other _ _ _ _ h]

lemma inv_updateTransform (i : Nat) (w : World)
    (hA : w.activeImage = some i) (hw : Inv w) : Inv (updateTransform i w) := by
  obtain ⟨h1, h2, h3, h4, h5, h6⟩ := hw
  unfold updateTransform
  by_cases hs : w.isSvg
  · rw [if_pos hs]
    refine ⟨h1, h2, ?_, ?_, h5, h6⟩
    · intro j hj
      rw [updateSvgTransform_dom_activeClass] at hj
      exact h3 j hj
    · intro j hj
      rw [updateSvgTransform_dom_transformStyle] at hj
      exact h4 j hj
  · rw [if_neg hs]
    refine ⟨h1, h2, ?_, ?_, h5, h6⟩
    · intro j hj
      by_cases h : j = i
      · subst h; exact hA
      · refine h3 j ?_
        have heq : ((updDom w.dom i
            (fun d => { d with transformStyle := some (w.offsetX, w.offsetY, w.scale) })) j).activeClass
            = (w.dom j).activeClass := by rw [updDom_other _ _ _ _ h]
        rw [← heq]; exact hj
    · intro j hj
      by_cases h : j = i
      · subst h; exact hA
      · refine h4 j ?_
        have heq : ((updDom w.dom i
            (fun d => { d with transformStyle := some (w.offsetX, w.offsetY, w.scale) })) j).transformStyle
            = (w.dom j).transformStyle := by rw [updDom_other _ _ _ _ h]
        rw [← heq]; exact hj

lemma inv_handleImageClick (target : Option Nat) (inW : Bool) (w : World) (hw : Inv w) :
    Inv (handleImageClick target inW w) := by
  obtain ⟨h1, h2, h3, h4, h5, h6⟩ := hw
  cases target with
  | none => exact ⟨h1, h2, h3, h4, h5, h6⟩
  | some t =>
    simp only [handleImageClick]
    by_cases hW : inW = false
    · rw [if_pos hW]; exact ⟨h1, h2, h3, h4, h5, h6⟩
    · rw [if_neg hW]
      obtain hA | ⟨a, hA⟩ := Option.eq_none_or_eq_some w.activeImage
      · simp only [hA]
        refine inv_activate t w h1 ?_ ?_ ?_
        · intro j hj
          have hj2 := h3 j hj
          rw [hA] at hj2
          exact absurd hj2.symm (Option.some_ne_none j)
        · intro j hj
          have hj2 := h4 j hj
          rw [hA] at hj2
          exact absurd hj2.symm (Option.some_ne_none j)
        · intro _
          exact ⟨(h2 hA).2.2.2.2.1, (h2 hA).2.2.2.2.2⟩
      · simp only [hA]
        by_cases hat : a ≠ t
        · rw [if_pos hat]
          refine inv_activate t (resetImage a w) (by show (1:ℚ)/10 ≤ 1; norm_num) ?_ ?_ ?_
          · intro j hj
            rw [resetImage_dom_activeClass] at hj
            by_cases h : j = a
            · rw [if_pos h] at hj
              exact Bool.noConfusion hj
            · rw [if_neg h] at hj
              have hj2 := h3 j hj
              rw [hA] at hj2
              exact absurd (Option.some.inj hj2).symm h
          · intro j hj
            rw [resetImage_dom_transformStyle] at hj
            by_cases h : j = a
            · rw [if_pos h] at hj
              exact absurd rfl hj
            · rw [if_neg h] at hj
              have hj2 := h4 j hj
              rw [hA] at hj2
              exact absurd (Option.some.inj hj2).symm h
          · intro _
            exact ⟨rfl, rfl⟩
        · rw [if_neg hat]
          push_neg at hat
          subst hat
          refine inv_activate a w h1 ?_ ?_ ?_
          · intro j hj
            have hj2 := h3 j hj
            rw [hA] at hj2
            exact (Option.some.inj hj2).symm
          · intro j hj
            have hj2 := h4 j hj
            rw [hA] at hj2
            exact (Option.some.inj hj2).symm
          · intro hb
            have hsvg : w.isSvg = false := by rw [h6 a hA]; exact hb
            exact h5 hsvg

lemma inv_handleWheel (cx cy : ℚ) (r : Rect) (dY : ℚ) (ctrl : Bool) (w : World) (hw : Inv w) :
    Inv (handleWheel cx cy r dY ctrl w) := by
  obtain hA | ⟨i, hA⟩ := Option.eq_none_or_eq_some w.activeImage
  · simp only [handleWheel, hA]
    exact hw
  · simp only [handleWheel, hA]
    by_cases hF : isMouseWithinFrame cx cy r = false
    · rw [if_pos hF]; exact hw
    · rw [if_neg hF]
      by_cases hC : ctrl = false
      · rw [if_pos hC]; exact hw
      · rw [if_neg hC]
        have hA2 : (wheelApply (cx - r.left) (cy - r.top) dY w).activeImage = some i := hA
        exact inv_updateTransform i _ hA2 (inv_wheelApply _ _ _ i w hA hw)

lemma inv_handleMouseDown (b : Nat) (cx cy : ℚ) (r : Rect) (onImg onBtn : Bool)
    (w : World) (hw : Inv w) : Inv (handleMouseDown b cx cy r onImg onBtn w) := by
  obtain ⟨h1, h2, h3, h4, h5, h6⟩ := hw
  unfold handleMouseDown
  by_cases hb : b ≠ 0
  · rw [if_pos hb]; exact ⟨h1, h2, h3, h4, h5, h6⟩
  · rw [if_neg hb]
    obtain hA | ⟨i, hA⟩ := Option.eq_none_or_eq_some w.activeImage
    · simp only [hA]; exact ⟨h1, h2, h3, h4, h5, h6⟩
    · simp only [hA]
      by_cases hF : isMouseWithinFrame cx cy r = false
      · rw [if_pos hF]; exact ⟨h1, h2, h3, h4, h5, h6⟩
      · rw [if_neg hF]
        by_cases hI : onImg = false
        · rw [if_pos hI]; exact ⟨h1, h2, h3, h4, h5, h6⟩
        · rw [if_neg hI]
          by_cases hR : onBtn = true
          · rw [if_pos hR]; exact ⟨h1, h2, h3, h4, h5, h6⟩
          · rw [if_neg hR]
            refine ⟨h1, ?_, ?_, ?_, h5, ?_⟩
            · intro h
              have h0 : some i = (none : Option Nat) := h
              exact absurd h0 (Option.some_ne_none i)
            · intro j hj
              by_cases h : j = i
              · subst h; rfl
              · have heq : ((updDom w.dom i (fun d => { d with draggingClass := true })) j).activeClass
                    = (w.dom j).activeClass := by rw [updDom_other _ _ _ _ h]
                have hj2 : (w.dom j).activeClass = true := by rw [← heq]; exact hj
                have hj3 := h3 j hj2
                rw [hA] at hj3
                exact absurd (Option.some.inj hj3).symm h
            · intro j hj
              by_cases h : j = i
              · subst h; rfl
              · have heq : ((updDom w.dom i (fun d => { d with draggingClass := true })) j).transformStyle
                    = (w.dom j).transformStyle := by rw [updDom_other _ _ _ _ h]
                have hj2 : (w.dom j).transformStyle ≠ none := by rw [← heq]; exact hj
                have hj3 := h4 j hj2
                rw [hA] at hj3
                exact absurd (Option.some.inj hj3).symm h
            · intro j hj
              have hj2 : some i = some j := hj
              obtain rfl := Option.some.inj hj2
              exact h6 _ hA

lemma inv_handleMouseMove (cx cy mx my : ℚ) (r : Rect) (w : World) (hw : Inv w) :
    Inv (handleMouseMove cx cy mx my r w) := by
  obtain ⟨h1, h2, h3, h4, h5, h6⟩ := hw
  unfold handleMouseMove
  by_cases hd : w.isDragging = false
  · rw [if_pos hd]; exact ⟨h1, h2, h3, h4, h5, h6⟩
  · rw [if_neg hd]
    obtain hA | ⟨i, hA⟩ := Option.eq_none_or_eq_some w.activeImage
    · simp only [hA]; exact ⟨h1, h2, h3, h4, h5, h6⟩
    · simp only [hA]
      by_cases hT : withinTolerance cx cy r 50 = false
      · rw [if_pos hT]
        refine ⟨h1, ?_, ?_, ?_, h5, ?_⟩
        · intro h
          have h0 : some i = (none : Option Nat) := h
          exact absurd h0 (Option.some_ne_none i)
        · intro j hj
          by_cases h : j = i
          · subst h; rfl
          · have heq : ((updDom w.dom i (fun d => { d with draggingClass := false })) j).activeClass
                = (w.dom j).activeClass := by rw [updDom_other _ _ _ _ h]
            have hj2 : (w.dom j).activeClass = true := by rw [← heq]; exact hj
            have hj3 := h3 j hj2
            rw [hA] at hj3
            exact absurd (Option.some.inj hj3).symm h
        · intro j hj
          by_cases h : j = i
          · subst h; rfl
          · have heq : ((updDom w.dom i (fun d => { d with draggingClass := false })) j).transformStyle
                = (w.dom j).transformStyle := by rw [updDom_other _ _ _ _ h]
            have hj2 : (w.dom j).transformStyle ≠ none := by rw [← heq]; exact hj
            have hj3 := h4 j hj2
            rw [hA] at hj3
            exact absurd (Option.some.inj hj3).symm h
        · intro j hj
          have hj2 : some i = some j := hj
          obtain rfl := Option.some.inj hj2
          exact h6 _ hA
      · rw [if_neg hT]
        have hA2 : (dragApply mx my r w).activeImage = some i := by
          rw [(dragApply_fields mx my r w).2.1]; exact hA
        exact inv_updateTransform i _ hA2 (inv_dragApply mx my r i w hA ⟨h1, h2, h3, h4, h5, h6⟩)

lemma inv_handleMouseUp (w : World) (hw : Inv w) : Inv (handleMouseUp w) := by
  obtain ⟨h1, h2, h3, h4, h5, h6⟩ := hw
  unfold handleMouseUp
  by_cases hd : w.isDragging = true
  · rw [if_pos hd]
    obtain hA | ⟨i, hA⟩ := Option.eq_none_or_eq_some w.activeImage
    · simp only [hA]; exact ⟨h1, h2, h3, h4, h5, h6⟩
    · simp only [hA]
      refine ⟨h1, ?_, ?_, ?_, h5, ?_⟩
      · intro h
        have h0 : some i = (none : Option Nat) := h
        exact absurd h0 (Option.some_ne_none i)
      · intro j hj
        by_cases h : j = i
        · subst h; rfl
        · have heq : ((updDom w.dom i (fun d => { d with draggingClass := false })) j).activeClass
              = (w.dom j).activeClass := by rw [updDom_other _ _ _ _ h]
          have hj2 : (w.dom j).activeClass = true := by rw [← heq]; exact hj
          have hj3 := h3 j hj2
          rw [hA] at hj3
          exact absurd (Option.some.inj hj3).symm h
      · intro j hj
        by_cases h : j = i
        · subst h; rfl
        · have heq : ((updDom w.dom i (fun d => { d with draggingClass := false })) j).transformStyle
              = (w.dom j).transformStyle := by rw [updDom_other _ _ _ _ h]
          have hj2 : (w.dom j).transformStyle ≠ none := by rw [← heq]; exact hj
          have hj3 := h4 j hj2
          rw [hA] at hj3
          exact absurd (Option.some.inj hj3).symm h
      · intro j hj
        have hj2 : some i = some j := hj
        obtain rfl := Option.some.inj hj2
        exact h6 _ hA
  · rw [if_neg hd]
    exact ⟨h1, h2, h3, h4, h5, h6⟩

lemma inv_handleEscape (w : World) (hw : Inv w) : Inv (handleEscape w) := by
  obtain hA | ⟨i, hA⟩ := Option.eq_none_or_eq_some w.activeImage
  · simp only [handleEscape, hA]; exact hw
  · simp only [handleEscape, hA]; exact inv_deactivate i w hA hw

lemma inv_handleResetClick (w : World) (hw : Inv w) : Inv (handleResetClick w) := by
  obtain hA | ⟨i, hA⟩ := Option.eq_none_or_eq_some w.activeImage
  · simp only [handleResetClick, hA]; exact hw
  · simp only [handleResetClick, hA]; exact inv_deactivate i w hA hw

lemma inv_initWorld (svgOf : Nat → Bool) (attr0 : Nat → Option ViewBox) :
    Inv (initWorld svgOf attr0) := by
  refine ⟨by show (1:ℚ)/10 ≤ 1; norm_num, ?_, ?_, ?_, ?_, ?_⟩
  · intro _; exact ⟨rfl, rfl, rfl, rfl, rfl, rfl⟩
  · intro j hj
    have h : (false : Bool) = true := hj
    exact Bool.noConfusion h
  · intro j hj
    exact absurd rfl hj
  · intro _; exact ⟨rfl, rfl⟩
  · intro j hj
    have h : (none : Option Nat) = some j := hj
    exact absurd h.symm (Option.some_ne_none j)

lemma inv_step (e : Ev) (w : World) (hw : Inv w) : Inv (step e w) := by
  cases e with
  | click t inW => exact inv_handleImageClick t inW w hw
  | wheel cx cy r dY ctrl => exact inv_handleWheel cx cy r dY ctrl w hw
  | mousedown b cx cy r onImg onBtn => exact inv_handleMouseDown b cx cy r onImg onBtn w hw
  | mousemove cx cy mx my r => exact inv_handleMouseMove cx cy mx my r w hw
  | mouseup => exact inv_handleMouseUp w hw
  | escape => exact inv_handleEscape w hw
  | resetClick => exact inv_handleResetClick w hw

lemma reach_inv (w : World) (h : Reach w) : Inv w := by
  induction h with
  | init svgOf attr0 => exact inv_initWorld svgOf attr0
  | step e w _ ih => exact inv_step e w ih

/-! ## ViewBox synchronisation under traces that never re-click the active image -/

/-- Event restriction: the event is not a click on the already-active
image (clicking the active image again re-records the current viewBox as
original without resetting the scale). -/
def notReclick : Ev → World → Prop
  | Ev.click (some t) _, w => w.activeImage ≠ some t
  | _, _ => True

/-- States reachable without ever clicking the already-active image. -/
inductive ReachNR : World → Prop where
  | init (svgOf : Nat → Bool) (attr0 : Nat → Option ViewBox) : ReachNR (initWorld svgOf attr0)
  | step (e : Ev) (w : World) : ReachNR w → notReclick e w → ReachNR (step e w)

/-- The spec's viewBox invariant: current viewBox dimensions are the
original dimensions divided by the scale. -/
def VBSync (w : World) : Prop :=
  ∀ o v, w.originalViewBox = some o → w.svgViewBox = some v →
    v.width = o.width / w.scale ∧ v.height = o.height / w.scale

lemma updateTransform_fields (i : Nat) (w : World) :
    (updateTransform i w).scale = w.scale ∧
    (updateTransform i w).originalViewBox = w.originalViewBox ∧
    (updateTransform i w).svgViewBox = w.svgViewBox ∧
    (updateTransform i w).activeImage = w.activeImage ∧
    (updateTransform i w).isSvg = w.isSvg ∧
    (updateTransform i w).isDragging = w.isDragging := by
  unfold updateTransform updateSvgTransform
  by_cases hs : w.isSvg
  · rw [if_pos hs]; exact ⟨rfl, rfl, rfl, rfl, rfl, rfl⟩
  · rw [if_neg hs]; exact ⟨rfl, rfl, rfl, rfl, rfl, rfl⟩

lemma vbsync_updateTransform (i : Nat) (x : World) (h : VBSync x) :
    VBSync (updateTransform i x) := by
  intro o v ho hv
  obtain ⟨g1, g2, g3, _, _, _⟩ := updateTransform_fields i x
  rw [g1]
  exact h o v (by rw [← g2]; exact ho) (by rw [← g3]; exact hv)

lemma vbsync_activate (t : Nat) (w1 : World) (hs : w1.scale = 1)
    (hnone : w1.originalViewBox = none ∧ w1.svgViewBox = none) :
    VBSync (activate t w1) := by
  intro o v ho hv
  have hscale : (activate t w1).scale = 1 := hs
  rw [hscale, div_one, div_one]
  by_cases hb : w1.svgOf t = true
  · cases hvb : (w1.dom t).viewBoxAttr with
    | some vb =>
      have h1 : (activate t w1).originalViewBox = some vb := by
        simp [activate, hb, hvb]
      have h2 : (activate t w1).svgViewBox = some vb := by
        simp [activate, hb, hvb]
      obtain rfl := Option.some.inj (h1.symm.trans ho)
      obtain rfl := Option.some.inj (h2.symm.trans hv)
      exact ⟨rfl, rfl⟩
    | none =>
      have h1 : (activate t w1).originalViewBox = none := by
        simp [activate, hb, hvb, hnone.1]
      exact absurd (h1.symm.trans ho) (by simp)
  · have h1 : (activate t w1).originalViewBox = none := by
      simp only [Bool.not_eq_true] at hb
      simp [activate, hb, hnone.1]
    exact absurd (h1.symm.trans ho) (by simp)

lemma vbsync_deactivate (i : Nat) (w : World) :
    VBSync { resetImage i w with activeImage := none } := by
  intro o v ho hv
  have ho2 : (none : Option ViewBox) = some o := ho
  exact absurd ho2 (by simp)

lemma vbsync_wheelApply (mX mY dY : ℚ) (w : World)
    (h5 : w.isSvg = false → w.originalViewBox = none ∧ w.svgViewBox = none) :
    VBSync (wheelApply mX mY dY w) := by
  intro o v ho hv
  have ho2 : w.originalViewBox = some o := ho
  by_cases hs : w.isSvg = true
  · cases hsv : w.svgViewBox with
    | none =>
      have hv2 : (wheelApply mX mY dY w).svgViewBox = w.svgViewBox := by
        simp [wheelApply, hs, hsv]
      rw [hv2, hsv] at hv
      exact absurd hv (by simp)
    | some vb0 =>
      have hv2 : (wheelApply mX mY dY w).svgViewBox = some
          { x := o.x - (wheelCore mX mY dY ⟨w.scale, w.offsetX, w.offsetY⟩).offsetX *
                ((o.width / (wheelCore mX mY dY ⟨w.scale, w.offsetX, w.offsetY⟩).scale) / o.width),
            y := o.y - (wheelCore mX mY dY ⟨w.scale, w.offsetX, w.offsetY⟩).offsetY *
                ((o.height / (wheelCore mX mY dY ⟨w.scale, w.offsetX, w.offsetY⟩).scale) / o.height),
            width := o.width / (wheelCore mX mY dY ⟨w.scale, w.offsetX, w.offsetY⟩).scale,
            height := o.height / (wheelCore mX mY dY ⟨w.scale, w.offsetX, w.offsetY⟩).scale } := by
        simp [wheelApply, hs, hsv, ho2]
      rw [hv2] at hv
      obtain rfl := Option.some.inj hv
      exact ⟨rfl, rfl⟩
  · obtain ⟨hno, _⟩ := h5 (by simpa using hs)
    rw [hno] at ho2
    exact absurd ho2 (by simp)

lemma vbsync_dragApply (mx my : ℚ) (r : Rect) (w : World) (hsync : VBSync w) :
    VBSync (dragApply mx my r w) := by
  intro o v ho hv
  obtain ⟨f1, f2, f3, f4, f5, f6⟩ := dragApply_fields mx my r w
  rw [f1]
  have ho2 : w.originalViewBox = some o := by rw [← f5]; exact ho
  by_cases hs : w.isSvg = true
  · cases hsv : w.svgViewBox with
    | none =>
      have hv2 : (dragApply mx my r w).svgViewBox = w.svgViewBox := by
        simp [dragApply, hs, hsv]
      rw [hv2, hsv] at hv
      exact absurd hv (by simp)
    | some vb =>
      have hv2 : (dragApply mx my r w).svgViewBox = some
          { vb with x := vb.x - mx * (vb.width / (r.right - r.left)),
                    y := vb.y - my * (vb.height / (r.bottom - r.top)) } := by
        simp [dragApply, hs, hsv]
      rw [hv2] at hv
      obtain rfl := Option.some.inj hv
      exact hsync o vb ho2 hsv
  · have hs2 : w.isSvg = false := by simpa using hs
    have hv2 : (dragApply mx my r w).svgViewBox = w.svgViewBox := by
      simp [dragApply, hs2]
    rw [hv2] at hv
    exact hsync o v ho2 hv

lemma vbsync_step (e : Ev) (w : World) (hw : Inv w) (hsync : VBSync w)
    (hok : notReclick e w) : VBSync (step e w) := by
  obtain ⟨h1, h2, h3, h4, h5, h6⟩ := hw
  cases e with
  | click target inW =>
    cases target with
    | none => exact hsync
    | some t =>
      simp only [step, handleImageClick]
      by_cases hW : inW = false
      · rw [if_pos hW]; exact hsync
      · rw [if_neg hW]
        obtain hA | ⟨a, hA⟩ := Option.eq_none_or_eq_some w.activeImage
        · simp only [hA]
          exact vbsync_activate t w (h2 hA).1 ⟨(h2 hA).2.2.2.2.1, (h2 hA).2.2.2.2.2⟩
        · simp only [hA]
          have hat : a ≠ t := by
            intro hcontra
            exact hok (by rw [hA, hcontra])
          rw [if_pos hat]
          exact vbsync_activate t (resetImage a w) rfl ⟨rfl, rfl⟩
  | wheel cx cy r dY ctrl =>
    obtain hA | ⟨i, hA⟩ := Option.eq_none_or_eq_some w.activeImage
    · simp only [step, handleWheel, hA]; exact hsync
    · simp only [step, handleWheel, hA]
      by_cases hF : isMouseWithinFrame cx cy r = false
      · rw [if_pos hF]; exact hsync
      · rw [if_neg hF]
        by_cases hC : ctrl = false
        · rw [if_pos hC]; exact hsync
        · rw [if_neg hC]
          exact vbsync_updateTransform i _ (vbsync_wheelApply _ _ _ w h5)
  | mousedown b cx cy r onImg onBtn =>
    simp only [step]
    unfold handleMouseDown
    by_cases hb : b ≠ 0
    · rw [if_pos hb]; exact hsync
    · rw [if_neg hb]
      obtain hA | ⟨i, hA⟩ := Option.eq_none_or_eq_some w.activeImage
      · simp only [hA]; exact hsync
      · simp only [hA]
        by_cases hF : isMouseWithinFrame cx cy r = false
        · rw [if_pos hF]; exact hsync
        · rw [if_neg hF]
          by_cases hI : onImg = false
          · rw [if_pos hI]; exact hsync
          · rw [if_neg hI]
            by_cases hR : onBtn = true
            · rw [if_pos hR]; exact hsync
            · rw [if_neg hR]
              intro o v ho hv
              exact hsync o v ho hv
  | mousemove cx cy mx my r =>
    simp only [step]
    unfold handleMouseMove
    by_cases hd : w.isDragging = false
    · rw [if_pos hd]; exact hsync
    · rw [if_neg hd]
      obtain hA | ⟨i, hA⟩ := Option.eq_none_or_eq_some w.activeImage
      · simp only [hA]; exact hsync
      · simp only [hA]
        by_cases hT : withinTolerance cx cy r 50 = false
        · rw [if_pos hT]
          intro o v ho hv
          exact hsync o v ho hv
        · rw [if_neg hT]
          exact vbsync_updateTransform i _ (vbsync_dragApply mx my r w hsync)
  | mouseup =>
    simp only [step]
    unfold handleMouseUp
    by_cases hd : w.isDragging = true
    · rw [if_pos hd]
      obtain hA | ⟨i, hA⟩ := Option.eq_none_or_eq_some w.activeImage
      · simp only [hA]; exact hsync
      · simp only [hA]
        intro o v ho hv
        exact hsync o v ho hv
    · rw [if_neg hd]; exact hsync
  | escape =>
    obtain hA | ⟨i, hA⟩ := Option.eq_none_or_eq_some w.activeImage
    · simp only [step, handleEscape, hA]; exact hsync
    · simp only [step, handleEscape, hA]; exact vbsync_deactivate i w
  | resetClick =>
    obtain hA | ⟨i, hA⟩ := Option.eq_none_or_eq_some w.activeImage
    · simp only [step, handleResetClick, hA]; exact hsync
    · simp only [step, handleResetClick, hA]; exact vbsync_deactivate i w

lemma reachNR_inv (w : World) (h : ReachNR w) : Inv w ∧ VBSync w := by
  induction h with
  | init svgOf attr0 =>
    refine ⟨inv_initWorld svgOf attr0, ?_⟩
    intro o v ho hv
    have ho2 : (none : Option ViewBox) = some o := ho
    exact absurd ho2 (by simp)
  | step e w hR hok ih =>
    exact ⟨inv_step e w ih.1, vbsync_step e w ih.1 ih.2 hok⟩

/-! ## Multi-image model (src/unnamed/part_001) -/

namespace Multi

/-- The per-image zoom state object created in handleImageClick
(src/unnamed/part_001 lines 171-183). -/
structure ImgState where
  isDragging : Bool
  initialX : ℚ
  initialY : ℚ
  offsetX : ℚ
  offsetY : ℚ
  scale : ℚ
  isSvg : Bool
  originalViewBox : Option ViewBox
  svgViewBox : Option ViewBox

/-- The multi-image plugin state (src/unnamed/part_001 lines 13-19):
`zoomed` models the `zoomedImages` Map (a `some` entry means the image is
tracked), `currentDragTarget` the image currently being dragged.  The
resize-observer bookkeeping carries no zoom/pan state and is not
tracked. -/
structure MWorld where
  svgOf : Nat → Bool
  dom : Nat → ImgDom
  zoomed : Nat → Option ImgState
  currentDragTarget : Option Nat

def updZoomed (f : Nat → Option ImgState) (t : Nat) (v : Option ImgState) :
    Nat → Option ImgState :=
  fun j => if j = t then v else f j

/-- The initial multi-image state: empty map, pristine DOM. -/
def initMWorld (svgOf : Nat → Bool) (attr0 : Nat → Option ViewBox) : MWorld :=
  { svgOf := svgOf,
    dom := fun i => { activeClass := false, draggingClass := false,
                      transformStyle := none, viewBoxAttr := attr0 i },
    zoomed := fun _ => none, currentDragTarget := none }

/-- resetImage (src/unnamed/part_001 lines 359-383): a no-op when the
image is untracked; otherwise restore the viewBox attribute (for an SVG
with a recorded original), clear the inline transform and the active
class, and delete the image from the map. -/
def resetImage (t : Nat) (w : MWorld) : MWorld :=
  match w.zoomed t with
  | none => w
  | some st =>
    let dom1 :=
      if st.isSvg then
        match st.originalViewBox with
        | some o => updDom w.dom t (fun d => { d with viewBoxAttr := some o })
        | none => w.dom
      else w.dom
    { w with
      dom := (updDom dom1 t (fun d => { d with transformStyle := none, activeClass := false })),
      zoomed := updZoomed w.zoomed t none }

/-- updateTransform / updateSvgTransform (src/unnamed/part_001 lines
342-357) for target `t` with state `st`. -/
def updateTransform (t : Nat) (st : ImgState) (w : MWorld) : MWorld :=
  if st.isSvg then
    match st.svgViewBox with
    | none => w
    | some vb =>
      { w with dom := updDom w.dom t (fun d => { d with viewBoxAttr := some vb }) }
  else
    { w with dom := (updDom w.dom t
        (fun d => { d with transformStyle := some (st.offsetX, st.offsetY, st.scale) })) }

/-- handleImageClick (src/unnamed/part_001 lines 153-207): a click on an
image that is already tracked does nothing (zoom kept persistent);
otherwise a fresh state with scale 1 is created, the viewBox recorded
for an SVG, and the image marked active.  `okArea` summarises the
modal/sidebar/workspace checks. -/
def handleImageClick (target : Option Nat) (okArea : Bool) (w : MWorld) : MWorld :=
  match target with
  | none => w
  | some t =>
    if okArea = false then w
    else if (w.zoomed t).isSome then w
    else
      let st0 : ImgState :=
        { isDragging := false, initialX := 0, initialY := 0, offsetX := 0, offsetY := 0,
          scale := 1, isSvg := w.svgOf t, originalViewBox := none, svgViewBox := none }
      let st1 :=
        if w.svgOf t then
          match (w.dom t).viewBoxAttr with
          | some vb => { st0 with originalViewBox := some vb, svgViewBox := some vb }
          | none => st0
        else st0
      { w with zoomed := updZoomed w.zoomed t (some st1),
               dom := updDom w.dom t (fun d => { d with activeClass := true }) }

/-- handleWheel (src/unnamed/part_001 lines 243-284): bail out unless the
wheel target is a tracked image, the cursor is inside its rect, and Alt
is held; then the same wheel core and SVG viewBox recomputation as the
single-image revision, on that image's state. -/
def handleWheel (target : Option Nat) (cx cy : ℚ) (r : Rect) (deltaY : ℚ) (alt : Bool)
    (w : MWorld) : MWorld :=
  match target with
  | none => w
  | some t =>
    match w.zoomed t with
    | none => w
    | some st =>
      if isMouseWithinFrame cx cy r = false then w
      else if alt = false then w
      else
        let zp := wheelCore (cx - r.left) (cy - r.top) deltaY
          { scale := st.scale, offsetX := st.offsetX, offsetY := st.offsetY }
        let newVB :=
          if st.isSvg then
            match st.svgViewBox, st.originalViewBox with
            | some _, some o =>
              let nw := o.width / zp.scale
              let nh := o.height / zp.scale
              some { x := o.x - zp.offsetX * (nw / o.width),
                     y := o.y - zp.offsetY * (nh / o.height),
                     width := nw, height := nh }
            | _, _ => st.svgViewBox
          else st.svgViewBox
        let st2 := { st with scale := zp.scale, offsetX := zp.offsetX, offsetY := zp.offsetY,
                             svgViewBox := newVB }
        updateTransform t st2 { w with zoomed := updZoomed w.zoomed t (some st2) }

/-- handleMouseDown (src/unnamed/part_001 lines 286-301): left button on
a tracked image, inside its rect and inside the element (not the reset
button), starts a drag on that image. -/
def handleMouseDown (target : Option Nat) (button : Nat) (cx cy : ℚ) (r : Rect)
    (contains onResetBtn : Bool) (w : MWorld) : MWorld :=
  if button ≠ 0 then w
  else
    match target with
    | none => w
    | some t =>
      match w.zoomed t with
      | none => w
      | some st =>
        if isMouseWithinFrame cx cy r = false then w
        else if contains = false then w
        else if onResetBtn then w
        else
          { w with currentDragTarget := some t,
                   zoomed := (updZoomed w.zoomed t (some
                     { st with isDragging := true,
                               initialX := cx - st.offsetX, initialY := cy - st.offsetY })),
                   dom := updDom w.dom t (fun d => { d with draggingClass := true }) }

/-- handleMouseMove (src/unnamed/part_001 lines 303-329): while a drag
target with a dragging state exists, stop the drag if the cursor left
the rect by more than 100px, otherwise pan that image. -/
def handleMouseMove (cx cy mx my : ℚ) (r : Rect) (w : MWorld) : MWorld :=
  match w.currentDragTarget with
  | none => w
  | some t =>
    match w.zoomed t with
    | none => w
    | some st =>
      if st.isDragging = false then w
      else if withinTolerance cx cy r 100 = false then
        { w with zoomed := updZoomed w.zoomed t (some { st with isDragging := false }),
                 dom := updDom w.dom t (fun d => { d with draggingClass := false }),
                 currentDragTarget := none }
      else
        let st1 :=
          if st.isSvg then
            match st.svgViewBox with
            | some vb =>
              { st with svgViewBox := (some
                  { vb with
                    x := vb.x - mx * (vb.width / (r.right - r.left)),
                    y := vb.y - my * (vb.height / (r.bottom - r.top)) }) }
            | none => { st with offsetX := st.offsetX + mx, offsetY := st.offsetY + my }
          else { st with offsetX := st.offsetX + mx, offsetY := st.offsetY + my }
        updateTransform t st1 { w with zoomed := updZoomed w.zoomed t (some st1) }

/-- handleMouseUp (src/unnamed/part_001 lines 331-340). -/
def handleMouseUp (w : MWorld) : MWorld :=
  match w.currentDragTarget with
  | none => w
  | some t =>
    let w1 :=
      match w.zoomed t with
      | none => w
      | some st =>
        if st.isDragging then
          { w with zoomed := updZoomed w.zoomed t (some { st with isDragging := false }),
                   dom := updDom w.dom t (fun d => { d with draggingClass := false }) }
        else w
    { w1 with currentDragTarget := none }

/-- The Escape handler (src/unnamed/part_001 lines 34-41): reset every
tracked image.  (The `size > 0` guard has no observable effect and is
not modelled; the per-image reset is applied pointwise.) -/
def handleEscape (w : MWorld) : MWorld :=
  { w with
    zoomed := fun _ => none,
    dom := fun i =>
      match w.zoomed i with
      | none => w.dom i
      | some st =>
        let d1 :=
          if st.isSvg then
            match st.originalViewBox with
            | some o => { w.dom i with viewBoxAttr := some o }
            | none => w.dom i
          else w.dom i
        { d1 with transformStyle := none, activeClass := false } }

/-- The per-image reset button handler (src/unnamed/part_001 lines
391-394): resetImage on that image. -/
def handleResetClick (t : Nat) (w : MWorld) : MWorld :=
  resetImage t w

/-- Events of the multi-image revision; wheel and mousedown carry the
img/svg ancestor of the event target. -/
inductive MEv where
  | click (target : Option Nat) (okArea : Bool)
  | wheel (target : Option Nat) (clientX clientY : ℚ) (rect : Rect) (deltaY : ℚ) (alt : Bool)
  | mousedown (target : Option Nat) (button : Nat) (clientX clientY : ℚ) (rect : Rect)
      (contains onResetBtn : Bool)
  | mousemove (clientX clientY movementX movementY : ℚ) (rect : Rect)
  | mouseup
  | escape
  | resetClick (target : Nat)

def stepM : MEv → MWorld → MWorld
  | MEv.click t okArea, w => handleImageClick t okArea w
  | MEv.wheel t cx cy r dY alt, w => handleWheel t cx cy r dY alt w
  | MEv.mousedown t b cx cy r c oBtn, w => handleMouseDown t b cx cy r c oBtn w
  | MEv.mousemove cx cy mx my r, w => handleMouseMove cx cy mx my r w
  | MEv.mouseup, w => handleMouseUp w
  | MEv.escape, w => handleEscape w
  | MEv.resetClick t, w => handleResetClick t w

end Multi

/-! ## parseViewBox (src/main.ts lines 375-381, src/unnamed/part_001 lines 209-215) -/

def jsIsDigit (c : Char) : Bool :=
  decide ('0' ≤ c) && decide (c ≤ '9')

def digitVal (c : Char) : Nat := c.toNat - '0'.toNat

def digitsToNat (ds : List Char) : Nat :=
  ds.foldl (fun n c => 10 * n + digitVal c) 0

/-- The ECMAScript StrWhiteSpace characters (the common ones). -/
def jsIsWhitespace (c : Char) : Bool :=
  c = ' ' || c = '\t' || c = '\n' || c = '\r' || c = '\x0b' || c = '\x0c'

/-- Unsigned decimal mantissa of a JavaScript StrDecimalLiteral:
`Digits [. Digits?]` or `. Digits`; returns the value and the unconsumed
rest, or `none` when no mantissa starts the input. -/
def parseMantissa (cs : List Char) : Option (ℚ × List Char) :=
  let ds := cs.takeWhile jsIsDigit
  let r1 := cs.dropWhile jsIsDigit
  match ds, r1 with
  | [], '.' :: r2 =>
    let fs := r2.takeWhile jsIsDigit
    let r3 := r2.dropWhile jsIsDigit
    if fs.isEmpty then none
    else some ((digitsToNat fs : ℚ) / (10 : ℚ) ^ fs.length, r3)
  | [], _ => none
  | _, '.' :: r2 =>
    let fs := r2.takeWhile jsIsDigit
    let r3 := r2.dropWhile jsIsDigit
    some ((digitsToNat ds : ℚ) + (digitsToNat fs : ℚ) / (10 : ℚ) ^ fs.length, r3)
  | _, _ => some ((digitsToNat ds : ℚ), r1)

/-- Optional exponent part `e|E [+|-] Digits`; consumed only when digits
follow, exactly as in JavaScript. -/
def parseExponent (cs : List Char) : Int × List Char :=
  match cs with
  | [] => (0, cs)
  | e0 :: rest =>
    if e0 = 'e' || e0 = 'E' then
      match rest with
      | '+' :: r2 =>
        let ds := r2.takeWhile jsIsDigit
        if ds.isEmpty then (0, cs) else ((digitsToNat ds : Int), r2.dropWhile jsIsDigit)
      | '-' :: r2 =>
        let ds := r2.takeWhile jsIsDigit
        if ds.isEmpty then (0, cs) else (-(digitsToNat ds : Int), r2.dropWhile jsIsDigit)
      | r2 =>
        let ds := r2.takeWhile jsIsDigit
        if ds.isEmpty then (0, cs) else ((digitsToNat ds : Int), r2.dropWhile jsIsDigit)
    else (0, cs)

def applyExponent (q : ℚ) (e : Int) : ℚ :=
  if 0 ≤ e then q * (10 : ℚ) ^ e.toNat else q / (10 : ℚ) ^ (-e).toNat

/-- Model of the JavaScript `parseFloat` builtin on decimal literals:
skip leading whitespace, optional sign, longest decimal-literal prefix
(with optional exponent); `none` models the NaN result when no numeric
prefix exists.  (The `Infinity` literal, which ℚ cannot represent, is
outside the model.) -/
def jsParseFloatL (cs0 : List Char) : Option ℚ :=
  let cs := cs0.dropWhile jsIsWhitespace
  match cs with
  | '+' :: r =>
    (parseMantissa r).map (fun p => applyExponent p.1 (parseExponent p.2).1)
  | '-' :: r =>
    (parseMantissa r).map (fun p => applyExponent (-p.1) (parseExponent p.2).1)
  | r =>
    (parseMantissa r).map (fun p => applyExponent p.1 (parseExponent p.2).1)

def jsParseFloat (s : String) : Option ℚ := jsParseFloatL s.data

/-- JavaScript `s.split(' ')`: split on every single space, preserving
empty parts (the empty string yields one empty part). -/
def jsSplitOnSpace : List Char → List (List Char)
  | [] => [[]]
  | c :: cs =>
    if c = ' ' then [] :: jsSplitOnSpace cs
    else
      match jsSplitOnSpace cs with
      | [] => [[c]]
      | p :: ps => (c :: p) :: ps

/-- The record parseViewBox builds; `none` components model NaN. -/
structure JSViewBox where
  x : Option ℚ
  y : Option ℚ
  width : Option ℚ
  height : Option ℚ
deriving DecidableEq

/-- parseViewBox (src/main.ts lines 375-381): split on single spaces, map
parseFloat over the parts, return null unless there are exactly 4 parts,
else the record of the 4 parsed values in order. -/
def parseViewBox (s : String) : Option JSViewBox :=
  let parts := (jsSplitOnSpace s.data).map jsParseFloatL
  match parts with
  | [a, b, c, d] => some { x := a, y := b, width := c, height := d }
  | _ => none

/-! ## Claims -/

/-- C1 (amended).  The wheel handler measures mouseX against the
transformed element's bounding rect (`rect.left = layout + offsetX` for
a positive scale with transform-origin top left), so the offset update
`offsetX' = mouseX - (mouseX - offsetX) * (scale'/scale)` moves the image
point that was under the cursor to `clientX + (scale'/scale - 1) * offsetX`:
the point stays fixed exactly when the prior offset is zero (second
conjunct), and measuring mouseX from the untransformed layout origin
instead would fix the cursor point for every prior state (third
conjunct). -/
theorem c1_zoom_toward_cursor_drift (layout off s s2 c : ℚ) (hs : 0 < s) :
    renderX layout (wheelOffsetUpdate (c - rectLeft layout off) off (s2 / s)) s2
        ((c - rectLeft layout off) / s)
      = c + (s2 / s - 1) * off
    ∧ (off = 0 →
        renderX layout (wheelOffsetUpdate (c - rectLeft layout off) off (s2 / s)) s2
          ((c - rectLeft layout off) / s) = c)
    ∧ renderX layout (wheelOffsetUpdate (c - layout) off (s2 / s)) s2
        ((c - layout - off) / s) = c := by
  have hs0 : s ≠ 0 := ne_of_gt hs
  refine ⟨?_, ?_, ?_⟩
  · unfold renderX wheelOffsetUpdate rectLeft
    field_simp
    ring
  · intro h0
    subst h0
    unfold renderX wheelOffsetUpdate rectLeft
    field_simp
    ring
  · unfold renderX wheelOffsetUpdate
    field_simp
    ring

/-- C1 witness: the drift formula evaluated at layout 0, offset 10,
scale 1 → 1.1, cursor at client x 50. -/
theorem c1_zoom_toward_cursor_drift_witness :
    (0:ℚ) < 1 ∧
    renderX 0 (wheelOffsetUpdate ((50:ℚ) - rectLeft 0 10) 10 ((11/10) / 1)) (11/10)
        (((50:ℚ) - rectLeft 0 10) / 1) = 50 + ((11/10) / 1 - 1) * 10 :=
  ⟨by norm_num, (c1_zoom_toward_cursor_drift 0 10 1 (11/10) 50 (by norm_num)).1⟩

/-- C1 counterexample: with prior offset 10, scale 1, a zoom-in to scale
1.1 at client x 50 (layout origin 0) sends the image point that was under
the cursor to client x 51, not 50 — the claimed fixed-point property
fails for a state with nonzero offset. -/
theorem c1_counterexample :
    renderX 0 (wheelOffsetUpdate ((50:ℚ) - rectLeft 0 10) 10 ((11/10) / 1)) (11/10)
        (((50:ℚ) - rectLeft 0 10) / 1) = 51 ∧ (51 : ℚ) ≠ 50 := by
  constructor
  · norm_num [renderX, wheelOffsetUpdate, rectLeft]
  · norm_num

/-- C2.  In every reachable state of the single-image plugin the scale
is at least 0.1 (hence strictly positive), and the additive wheel update
of the first revision preserves the 0.1 lower bound. -/
theorem c2_scale_lower_bound :
    (∀ w : World, Reach w → 1/10 ≤ w.scale ∧ 0 < w.scale) ∧
    (∀ s deltaY : ℚ, 1/10 ≤ s → 1/10 ≤ wheelScaleAdditive s deltaY) := by
  constructor
  · intro w hw
    have h1 := (reach_inv w hw).1
    exact ⟨h1, lt_of_lt_of_le (by norm_num) h1⟩
  · intro s d hs
    unfold wheelScaleAdditive
    split
    · linarith
    · exact le_max_left _ _

/-- C2 witness: the initial state and one additive wheel step. -/
theorem c2_scale_lower_bound_witness :
    ((1:ℚ)/10 ≤ (initWorld (fun _ => false) (fun _ => none)).scale ∧
      0 < (initWorld (fun _ => false) (fun _ => none)).scale) ∧
    (1:ℚ)/10 ≤ wheelScaleAdditive 1 1 :=
  ⟨c2_scale_lower_bound.1 _ (Reach.init _ _),
   c2_scale_lower_bound.2 1 1 (by norm_num)⟩

/-- C3 (amended).  In every state reachable without clicking the
already-active image, the current viewBox dimensions equal the original
viewBox dimensions divided by the scale.  (Clicking the already-active
image re-records the zoomed viewBox as original while keeping the zoomed
scale, breaking the invariant — see the counterexample.) -/
theorem c3_viewbox_sync (w : World) (hw : ReachNR w) (o v : ViewBox)
    (ho : w.originalViewBox = some o) (hv : w.svgViewBox = some v) :
    v.width = o.width / w.scale ∧ v.height = o.height / w.scale :=
  (reachNR_inv w hw).2 o v ho hv

def c3WitnessW : World :=
  step (Ev.click (some 0) true)
    (initWorld (fun _ => true) (fun _ => some { x := 0, y := 0, width := 100, height := 100 }))

/-- C3 witness: after activating an SVG with viewBox 0 0 100 100 the
invariant holds with scale 1. -/
theorem c3_viewbox_sync_witness :
    c3WitnessW.originalViewBox = some { x := 0, y := 0, width := 100, height := 100 } ∧
    c3WitnessW.svgViewBox = some { x := 0, y := 0, width := 100, height := 100 } ∧
    (100 : ℚ) = 100 / c3WitnessW.scale := by
  refine ⟨rfl, rfl, ?_⟩
  have h := c3_viewbox_sync c3WitnessW
    (ReachNR.step _ _ (ReachNR.init _ _) (by simp [notReclick, initWorld]))
    { x := 0, y := 0, width := 100, height := 100 }
    { x := 0, y := 0, width := 100, height := 100 } rfl rfl
  exact h.1

def c3Box : ViewBox := { x := 0, y := 0, width := 100, height := 100 }

def c3W1 : World :=
  step (Ev.click (some 0) true) (initWorld (fun _ => true) (fun _ => some c3Box))

def c3W2 : World :=
  step (Ev.wheel 50 50 { left := 0, right := 100, top := 0, bottom := 100 } (-1) true) c3W1

def c3W3 : World := step (Ev.click (some 0) true) c3W2

/-- C3 counterexample: click the SVG, Ctrl-zoom in once (scale 1.1,
current viewBox width 1000/11), then click the same, already-active SVG
again.  The handler re-reads the zoomed viewBox attribute as the new
original while the scale stays 1.1, so currentViewBox.width (1000/11) no
longer equals originalViewBox.width / scale (10000/121). -/
theorem c3_counterexample :
    c3W3.originalViewBox =
      some { x := 50/11, y := 50/11, width := 1000/11, height := 1000/11 } ∧
    c3W3.svgViewBox =
      some { x := 50/11, y := 50/11, width := 1000/11, height := 1000/11 } ∧
    c3W3.scale = 11/10 ∧
    ((1000:ℚ)/11) ≠ (1000/11) / (11/10) := by
  have hW2scale : c3W2.scale = 11/10 := by
    norm_num [c3W2, c3W1, step, handleWheel, handleImageClick, activate, initWorld,
      isMouseWithinFrame, wheelApply, wheelCore, wheelOffsetUpdate, updateTransform,
      updateSvgTransform, updDom, c3Box, max_def]
  have hW2active : c3W2.activeImage = some 0 := by
    norm_num [c3W2, c3W1, step, handleWheel, handleImageClick, activate, initWorld,
      isMouseWithinFrame, wheelApply, wheelCore, wheelOffsetUpdate, updateTransform,
      updateSvgTransform, updDom, c3Box, max_def]
  have hW2attr : (c3W2.dom 0).viewBoxAttr =
      some { x := 50/11, y := 50/11, width := 1000/11, height := 1000/11 } := by
    norm_num [c3W2, c3W1, step, handleWheel, handleImageClick, activate, initWorld,
      isMouseWithinFrame, wheelApply, wheelCore, wheelOffsetUpdate, updateTransform,
      updateSvgTransform, updDom, c3Box, max_def]
  have hW2svgOf : c3W2.svgOf 0 = true := by
    norm_num [c3W2, c3W1, step, handleWheel, handleImageClick, activate, initWorld,
      isMouseWithinFrame, wheelApply, wheelCore, wheelOffsetUpdate, updateTransform,
      updateSvgTransform, updDom, c3Box, max_def]
  have hstep : c3W3 = activate 0 c3W2 := by
    simp [c3W3, step, handleImageClick, hW2active]
  refine ⟨?_, ?_, ?_, by norm_num⟩
  · rw [hstep]
    simp [activate, hW2svgOf, hW2attr]
  · rw [hstep]
    simp [activate, hW2svgOf, hW2attr]
  · rw [hstep]
    show c3W2.scale = 11/10
    exact hW2scale

def c4W : World :=
  { svgOf := fun _ => true,
    dom := fun _ => { activeClass := true, draggingClass := false,
                      transformStyle := some (3, 4, 2),
                      viewBoxAttr := some { x := 0, y := 0, width := 50, height := 50 } },
    activeImage := some 0, isDragging := false, initialX := 0, initialY := 0,
    offsetX := 3, offsetY := 4, scale := 2, isSvg := true,
    originalViewBox := some { x := 0, y := 0, width := 100, height := 100 },
    svgViewBox := some { x := 0, y := 0, width := 50, height := 50 } }

/-- C4.  From any state with an active image, both reset paths (Escape
and the reset button) restore the untransformed state: scale 1, offsets
0, inline transform cleared, active class removed, the image
deactivated, and for a vector image the viewBox attribute set back to
the original recorded at activation. -/
theorem c4_reset_restores (w : World) (i : Nat) (hA : w.activeImage = some i) :
    ((step Ev.escape w).scale = 1 ∧ (step Ev.escape w).offsetX = 0 ∧
     (step Ev.escape w).offsetY = 0 ∧
     ((step Ev.escape w).dom i).transformStyle = none ∧
     ((step Ev.escape w).dom i).activeClass = false ∧
     (step Ev.escape w).activeImage = none ∧
     (∀ o : ViewBox, w.isSvg = true → w.originalViewBox = some o →
        ((step Ev.escape w).dom i).viewBoxAttr = some o)) ∧
    ((step Ev.resetClick w).scale = 1 ∧ (step Ev.resetClick w).offsetX = 0 ∧
     (step Ev.resetClick w).offsetY = 0 ∧
     ((step Ev.resetClick w).dom i).transformStyle = none ∧
     ((step Ev.resetClick w).dom i).activeClass = false ∧
     (step Ev.resetClick w).activeImage = none ∧
     (∀ o : ViewBox, w.isSvg = true → w.originalViewBox = some o →
        ((step Ev.resetClick w).dom i).viewBoxAttr = some o)) := by
  have hesc : step Ev.escape w = { resetImage i w with activeImage := none } := by
    simp [step, handleEscape, hA]
  have hrc : step Ev.resetClick w = { resetImage i w with activeImage := none } := by
    simp [step, handleResetClick, hA]
  rw [hesc, hrc]
  refine ⟨⟨rfl, rfl, rfl, ?_, ?_, rfl, ?_⟩, ⟨rfl, rfl, rfl, ?_, ?_, rfl, ?_⟩⟩
  · simpa using resetImage_dom_transformStyle i i w
  · simpa using resetImage_dom_activeClass i i w
  · intro o hsvg ho
    exact resetImage_dom_viewBoxAttr_restored i w o hsvg ho
  · simpa using resetImage_dom_transformStyle i i w
  · simpa using resetImage_dom_activeClass i i w
  · intro o hsvg ho
    exact resetImage_dom_viewBoxAttr_restored i w o hsvg ho

/-- C4 witness: a zoomed active SVG state, reset via Escape. -/
theorem c4_reset_restores_witness :
    c4W.activeImage = some 0 ∧
    (step Ev.escape c4W).scale = 1 ∧
    ((step Ev.escape c4W).dom 0).viewBoxAttr =
      some { x := 0, y := 0, width := 100, height := 100 } :=
  ⟨rfl, ((c4_reset_restores c4W 0 rfl).1).1,
   ((c4_reset_restores c4W 0 rfl).1).2.2.2.2.2.2 _ rfl rfl⟩

/-- C5.  A wheel event with Ctrl not pressed, or with no active image,
or with the cursor outside the active image's bounding rect, leaves the
whole state (plugin fields and DOM alike) unchanged. -/
theorem c5_wheel_noop (w : World) (cx cy : ℚ) (r : Rect) (dY : ℚ) (ctrl : Bool)
    (h : ctrl = false ∨ w.activeImage = none ∨ isMouseWithinFrame cx cy r = false) :
    step (Ev.wheel cx cy r dY ctrl) w = w := by
  obtain hA | ⟨i, hA⟩ := Option.eq_none_or_eq_some w.activeImage
  · simp [step, handleWheel, hA]
  · simp only [step, handleWheel, hA]
    rcases h with h | h | h
    · by_cases hF : isMouseWithinFrame cx cy r = false
      · rw [if_pos hF]
      · rw [if_neg hF, if_pos h]
    · rw [hA] at h
      exact absurd h (Option.some_ne_none i)
    · rw [if_pos h]

/-- C5 witness: a wheel event in the initial (no active image) state. -/
theorem c5_wheel_noop_witness :
    (initWorld (fun _ => false) (fun _ => none)).activeImage = none ∧
    step (Ev.wheel 0 0 { left := 0, right := 0, top := 0, bottom := 0 } 0 true)
        (initWorld (fun _ => false) (fun _ => none)) =
      initWorld (fun _ => false) (fun _ => none) :=
  ⟨rfl, c5_wheel_noop _ 0 0 _ 0 true (Or.inr (Or.inl rfl))⟩

def c6W : World :=
  step Ev.escape
    (step (Ev.mousedown 0 50 50 { left := 0, right := 100, top := 0, bottom := 100 } true false)
      (step (Ev.click (some 0) true) (initWorld (fun _ => false) (fun _ => none))))

/-- C6 (code evaluated at the failing input).  Click an image, press the
left button inside it (isDragging becomes true), then press Escape: the
reset path nulls the active image but never clears isDragging, so the
state machine's "reset returns to idle with isDragging false" is
violated — isDragging is still true with no active image. -/
theorem c6_escape_leaves_dragging :
    c6W.isDragging = true ∧ c6W.activeImage = none := by
  constructor
  · norm_num [c6W, step, handleEscape, handleMouseDown, handleImageClick, activate,
      initWorld, resetImage, isMouseWithinFrame, updDom]
  · norm_num [c6W, step, handleEscape, handleMouseDown, handleImageClick, activate,
      initWorld, resetImage, isMouseWithinFrame, updDom]

/-- C7.  In every reachable state at most one image carries the active
marker class or a non-cleared inline transform: any two images carrying
either are equal. -/
theorem c7_single_active (w : World) (hw : Reach w) (i j : Nat)
    (hi : (w.dom i).activeClass = true ∨ (w.dom i).transformStyle ≠ none)
    (hj : (w.dom j).activeClass = true ∨ (w.dom j).transformStyle ≠ none) : i = j := by
  obtain ⟨_, _, h3, h4, _, _⟩ := reach_inv w hw
  have hi2 : w.activeImage = some i := by
    rcases hi with h | h
    · exact h3 i h
    · exact h4 i h
  have hj2 : w.activeImage = some j := by
    rcases hj with h | h
    · exact h3 j h
    · exact h4 j h
  exact Option.some.inj (hi2.symm.trans hj2)

def c7W : World := step (Ev.click (some 0) true) (initWorld (fun _ => false) (fun _ => none))

/-- C7 witness: after one activation, image 0 carries the active class
and the theorem applies. -/
theorem c7_single_active_witness :
    (c7W.dom 0).activeClass = true ∧ 0 = 0 :=
  ⟨rfl, c7_single_active c7W (Reach.step _ _ (Reach.init _ _)) 0 0 (Or.inl rfl) (Or.inl rfl)⟩

/-- C8.  In the multi-image revision: after resetImage on a target the
tracked-state map no longer contains it, and any wheel or mousedown
event whose target is an untracked image is a complete no-op on the
whole state. -/
theorem c8_state_lifecycle :
    (∀ (w : Multi.MWorld) (t : Nat),
       (Multi.stepM (Multi.MEv.resetClick t) w).zoomed t = none) ∧
    (∀ (w : Multi.MWorld) (t : Nat) (cx cy dY : ℚ) (r : Rect) (alt : Bool),
       w.zoomed t = none → Multi.stepM (Multi.MEv.wheel (some t) cx cy r dY alt) w = w) ∧
    (∀ (w : Multi.MWorld) (t b : Nat) (cx cy : ℚ) (r : Rect) (c oBtn : Bool),
       w.zoomed t = none →
         Multi.stepM (Multi.MEv.mousedown (some t) b cx cy r c oBtn) w = w) := by
  refine ⟨?_, ?_, ?_⟩
  · intro w t
    simp only [Multi.stepM, Multi.handleResetClick, Multi.resetImage]
    obtain hz | ⟨st, hz⟩ := Option.eq_none_or_eq_some (w.zoomed t)
    · simp only [hz]
    · simp only [hz]
      show Multi.updZoomed w.zoomed t none t = none
      simp [Multi.updZoomed]
  · intro w t cx cy dY r alt hz
    simp [Multi.stepM, Multi.handleWheel, hz]
  · intro w t b cx cy r c oBtn hz
    simp [Multi.stepM, Multi.handleMouseDown, hz]

/-- C8 witness: the empty multi-image state with target 0. -/
theorem c8_state_lifecycle_witness :
    (Multi.initMWorld (fun _ => false) (fun _ => none)).zoomed 0 = none ∧
    Multi.stepM (Multi.MEv.wheel (some 0) 0 0 { left := 0, right := 0, top := 0, bottom := 0 } 0 true)
        (Multi.initMWorld (fun _ => false) (fun _ => none)) =
      Multi.initMWorld (fun _ => false) (fun _ => none) ∧
    (Multi.stepM (Multi.MEv.resetClick 0)
        (Multi.initMWorld (fun _ => false) (fun _ => none))).zoomed 0 = none :=
  ⟨rfl, c8_state_lifecycle.2.1 _ 0 0 0 0 _ true rfl, c8_state_lifecycle.1 _ 0⟩

/-- C9 (amended).  parseViewBox returns null exactly when splitting on
single spaces does not yield 4 parts, and otherwise the record of the
parseFloat values of the 4 parts in order (none modelling NaN).  (The
claim's parenthetical example is wrong: a comma-separated viewBox either
has no spaces, splits into one part and yields null, or has spaces after
the commas and yields the numeric prefixes such as 0, not NaN — see the
counterexample.) -/
theorem c9_parse_viewbox (s : String) :
    (parseViewBox s = none ↔ (jsSplitOnSpace s.data).length ≠ 4) ∧
    (∀ a b c d : List Char, jsSplitOnSpace s.data = [a, b, c, d] →
      parseViewBox s = some { x := jsParseFloatL a, y := jsParseFloatL b,
                              width := jsParseFloatL c, height := jsParseFloatL d }) := by
  constructor
  · simp only [parseViewBox]
    generalize jsSplitOnSpace s.data = l
    rcases l with _ | ⟨a, _ | ⟨b, _ | ⟨c, _ | ⟨d, _ | ⟨e, rest⟩⟩⟩⟩⟩ <;> simp
  · intro a b c d h
    simp only [parseViewBox, h]
    simp

/-- C9 witness: a well-formed four-part viewBox string. -/
theorem c9_parse_viewbox_witness :
    jsSplitOnSpace ("0 0 100 100").data = [['0'], ['0'], ['1','0','0'], ['1','0','0']] ∧
    parseViewBox "0 0 100 100" =
      some { x := jsParseFloatL ['0'], y := jsParseFloatL ['0'],
             width := jsParseFloatL ['1','0','0'], height := jsParseFloatL ['1','0','0'] } :=
  ⟨by decide, (c9_parse_viewbox "0 0 100 100").2 _ _ _ _ (by decide)⟩

/-- C9 counterexample: the comma-separated viewBox 0,0,100,100 yields
null (a single part), and 0, 0, 100, 100 yields a record with numeric
components 0 0 100 100 — in neither form a non-null record with NaN
components as the claim's example asserts. -/
theorem c9_counterexample :
    parseViewBox "0,0,100,100" = none ∧
    parseViewBox "0, 0, 100, 100" =
      some { x := some 0, y := some 0, width := some 100, height := some 100 } := by
  constructor
  · simp +decide [parseViewBox, jsSplitOnSpace]
  · simp +decide [parseViewBox, jsSplitOnSpace, jsParseFloatL, parseMantissa,
      parseExponent, applyExponent, digitsToNat, digitVal, jsIsDigit, jsIsWhitespace,
      List.takeWhile, List.dropWhile]

/-- C10.  A zoom-in wheel step followed by a zoom-out wheel step at the
same image-relative cursor position is the identity on
(scale, offsetX, offsetY) in exact rational arithmetic, provided the
starting scale is at least the clamp 0.1. -/
theorem c10_zoom_roundtrip (mX mY dIn dOut : ℚ) (st : ZP)
    (hIn : dIn < 0) (hOut : ¬ dOut < 0) (hs : 1/10 ≤ st.scale) :
    wheelCore mX mY dOut (wheelCore mX mY dIn st) = st := by
  obtain ⟨s, ox, oy⟩ := st
  have hs2 : (1:ℚ)/10 ≤ s := hs
  have hspos : (0:ℚ) < s := lt_of_lt_of_le (by norm_num) hs2
  have hsne : s ≠ 0 := ne_of_gt hspos
  simp only [wheelCore, wheelOffsetUpdate, if_pos hIn, if_neg hOut]
  have h1 : max ((1:ℚ)/10) (s * (11/10)) = s * (11/10) := max_eq_right (by nlinarith)
  rw [h1]
  have h2 : s * (11/10) / (11/10) = s := by field_simp
  rw [h2]
  have h3 : max ((1:ℚ)/10) s = s := max_eq_right hs2
  rw [h3]
  simp only [ZP.mk.injEq]
  refine ⟨trivial, ?_, ?_⟩
  · field_simp
    ring
  · field_simp
    ring

/-- C10 witness: scale 1, offsets (5, 7), cursor (3, 4). -/
theorem c10_zoom_roundtrip_witness :
    ((-1:ℚ) < 0) ∧ ¬((1:ℚ) < 0) ∧ ((1:ℚ)/10 ≤ ({ scale := 1, offsetX := 5, offsetY := 7 } : ZP).scale) ∧
    wheelCore 3 4 1 (wheelCore 3 4 (-1) { scale := 1, offsetX := 5, offsetY := 7 }) =
      { scale := 1, offsetX := 5, offsetY := 7 } :=
  ⟨by norm_num, by norm_num, by norm_num,
   c10_zoom_roundtrip 3 4 (-1) 1 _ (by norm_num) (by norm_num) (by norm_num)⟩

end ImagePanZoom
